import Mathlib

/-!
Verification of the wevi-sync synchronization engine.

Shallow embedding of the transfer primitive, upload/download orchestrators,
project-descriptor patcher and lock coordinator of the wevi-sync repository
(`src/unnamed/part_007`, `src/dist/premiere-extension/client/js/upload-helper.js`,
`src/unnamed/part_003`, `src/admin-server/server.js`), together with proofs of
the specified properties.
-/

namespace WeviSync

/-! ## Transfer primitive constants (src/unnamed/part_007, lines 3-5) -/

/-- `DRIVE_RESUMABLE_THRESHOLD = 8 * 1024 * 1024` (8 MiB). -/
def DRIVE_RESUMABLE_THRESHOLD : Nat := 8 * 1024 * 1024

/-- `DRIVE_CHUNK_SIZE = 8 * 1024 * 1024` (8 MiB). -/
def DRIVE_CHUNK_SIZE : Nat := 8 * 1024 * 1024

/-- `DRIVE_MAX_RETRIES = 4`. -/
def DRIVE_MAX_RETRIES : Nat := 4

/-! ## Retry policy (src/unnamed/part_007, lines 11-42) -/

/-- `shouldRetryStatus` (line 33): an HTTP status is retriable iff it is one of
408, 429, 500, 502, 503, 504. -/
def shouldRetryStatus (status : Nat) : Bool :=
  status == 408 || status == 429 || status == 500 || status == 502 ||
    status == 503 || status == 504

/-- The exponential backoff base `Math.min(30000, 1000 * Math.pow(2, attempt - 1))`
of `buildRetryDelayMs` (line 39). -/
def backoffBase (attempt : Nat) : Nat := min 30000 (1000 * 2 ^ (attempt - 1))

/-- `buildRetryDelayMs` (lines 37-42).  The JS jitter `Math.floor(Math.random()*500)`
is passed in as an oracle value `jitter`; callers of the theorems assume `jitter < 500`.
`explicitRetryAfterMs` models the (already millisecond-scaled, non-negative)
`err.retryAfterMs` field; the JS guard `explicitRetryAfterMs && explicitRetryAfterMs > 0`
is equivalent to `0 < v` on a natural number. -/
def buildRetryDelayMs (attempt : Nat) (explicitRetryAfterMs : Option Nat)
    (jitter : Nat) : Nat :=
  match explicitRetryAfterMs with
  | some v => if 0 < v then v else backoffBase attempt + jitter
  | none => backoffBase attempt + jitter

/-- The error value built by `createUploadError` (lines 11-17): HTTP status (if any),
the `retriable` flag, and the parsed `Retry-After` delay in ms (if any). -/
structure UploadErr where
  status : Option Nat
  retriable : Bool
  retryAfterMs : Option Nat
deriving DecidableEq, Repr

/-- Error raised on a non-2xx (and, for chunks, non-308) HTTP response
(`simpleUploadAttempt` line 185, `putResumableChunk` line 273):
`retriable := shouldRetryStatus status`. -/
def httpFailureErr (status : Nat) (retryAfterMs : Option Nat) : UploadErr :=
  ⟨some status, shouldRetryStatus status, retryAfterMs⟩

/-- Error raised on an XHR `error` event (network failure): retriable. -/
def networkErr : UploadErr := ⟨none, true, none⟩

/-- Error raised on an XHR `timeout` event: status 408, retriable. -/
def timeoutErr : UploadErr := ⟨some 408, true, none⟩

/-- Error raised on an XHR `abort` event (cancellation): not retriable. -/
def abortErr : UploadErr := ⟨none, false, none⟩

/-- Result of one upload attempt. -/
inductive AttemptOutcome (α : Type) where
  | ok (v : α)
  | fail (e : UploadErr)

/-- The retry loop shared by `uploadFileWithProgress` (lines 388-397 and 401-410)
and the per-chunk loop of `uploadResumableFromFile` (lines 325-350):
`for (attempt = 1; attempt <= DRIVE_MAX_RETRIES; attempt++) { try … }
catch { if (attempt >= DRIVE_MAX_RETRIES || !err.retriable) throw err;
await sleep(buildRetryDelayMs(attempt, err.retryAfterMs)); }`.
`outcomes k` is the result of the `k`-th attempt, `jitter k` the jitter drawn
before the `k`-th retry sleep.  Returns the final result together with the list
of waits slept between attempts.  `fuel` counts the remaining loop iterations;
the `fuel = 0` fallback models the unreachable `throw` after the loop (line 412). -/
def retryRun {α : Type} (outcomes : Nat → AttemptOutcome α) (jitter : Nat → Nat) :
    Nat → Nat → Except UploadErr α × List Nat
  | _attempt, 0 => (Except.error abortErr, [])
  | attempt, fuel + 1 =>
    match outcomes attempt with
    | .ok v => (Except.ok v, [])
    | .fail e =>
      if DRIVE_MAX_RETRIES ≤ attempt ∨ e.retriable = false then
        (Except.error e, [])
      else
        let d := buildRetryDelayMs attempt e.retryAfterMs (jitter attempt)
        let r := retryRun outcomes jitter (attempt + 1) fuel
        (r.1, d :: r.2)

/-- The whole retry loop, starting at attempt 1 with `DRIVE_MAX_RETRIES` iterations. -/
def uploadAttemptLoop {α : Type} (outcomes : Nat → AttemptOutcome α)
    (jitter : Nat → Nat) : Except UploadErr α × List Nat :=
  retryRun outcomes jitter 1 DRIVE_MAX_RETRIES

/-! ## Resumable chunking (src/unnamed/part_007, `uploadResumableFromFile`, lines 297-361) -/

/-- The sequence of `(start, size)` chunk ranges produced by the
`while (committedBytes < totalSize)` loop of `uploadResumableFromFile`
(lines 313-355): each iteration reads
`chunkSize = Math.min(DRIVE_CHUNK_SIZE, totalSize - committedBytes)` bytes at
offset `committedBytes` and, once the chunk is accepted (status 308 or 2xx),
advances `committedBytes += bytesRead`.  The file has its stated size, so
`readSync` returns the full requested `chunkSize`. -/
def chunkRangesFrom (total committed : Nat) : List (Nat × Nat) :=
  if _h : committed < total then
    let size := min DRIVE_CHUNK_SIZE (total - committed)
    (committed, size) :: chunkRangesFrom total (committed + size)
  else []
termination_by total - committed
decreasing_by
  have h1 : 0 < DRIVE_CHUNK_SIZE := by decide
  omega

/-- The `Content-Range: bytes start-end/total` header of `putResumableChunk`
(line 249); `last` is the inclusive end byte `committedBytes + bytesRead - 1`
(line 322). -/
structure ContentRange where
  start : Nat
  last : Nat
  total : Nat
deriving DecidableEq, Repr

/-- The Content-Range header sent for a given chunk `(start, size)` of a file of
size `total` (lines 321-322, 249). -/
def contentRangeOf (total : Nat) (c : Nat × Nat) : ContentRange :=
  ⟨c.1, c.1 + c.2 - 1, total⟩

/-- `contiguousFrom c l`: the ranges in `l` start exactly at `c` and each range
begins where the previous one ended — i.e. `committedBytes` advances by exactly
`bytesRead` after each accepted chunk. -/
def contiguousFrom : Nat → List (Nat × Nat) → Prop
  | _, [] => True
  | c, x :: rest => x.1 = c ∧ contiguousFrom (x.1 + x.2) rest

/-- The chunk ranges, flattened to the byte indices they cover, are exactly the
bytes `committed, …, total - 1` in order. -/
theorem chunkRangesFrom_flatten (total committed : Nat) :
    ((chunkRangesFrom total committed).map (fun c => List.range' c.1 c.2)).flatten
      = List.range' committed (total - committed) := by
  induction committed using chunkRangesFrom.induct total with
  | case1 x hx sz ih =>
    rw [chunkRangesFrom]
    simp only [dif_pos hx, List.map_cons, List.flatten_cons]
    rw [ih]
    have happ := List.range'_append x (min DRIVE_CHUNK_SIZE (total - x))
      (total - (x + min DRIVE_CHUNK_SIZE (total - x))) 1
    simp only [one_mul] at happ
    rw [happ]
    congr 1
    omega
  | case2 x hx =>
    rw [chunkRangesFrom]
    simp only [dif_neg hx, List.map_nil, List.flatten_nil]
    have hz : total - x = 0 := by omega
    rw [hz]
    rfl

/-- The chunk list is empty exactly when there is nothing left to upload. -/
theorem chunkRangesFrom_eq_nil (total committed : Nat) :
    chunkRangesFrom total committed = [] ↔ total ≤ committed := by
  rw [chunkRangesFrom]
  split
  · next h => simp only [List.cons_ne_nil, false_iff]; omega
  · next h => simp only [true_iff]; omega

/-- Every chunk except possibly the last has size exactly `DRIVE_CHUNK_SIZE`. -/
theorem chunkRangesFrom_dropLast (total committed : Nat) :
    ∀ p ∈ (chunkRangesFrom total committed).dropLast, p.2 = DRIVE_CHUNK_SIZE := by
  induction committed using chunkRangesFrom.induct total with
  | case1 x hx sz ih =>
    rw [chunkRangesFrom]
    simp only [dif_pos hx]
    intro p hp
    rcases hrest : chunkRangesFrom total (x + min DRIVE_CHUNK_SIZE (total - x))
      with _ | ⟨y, ys⟩
    · rw [hrest] at hp
      simp at hp
    · rw [hrest] at hp
      rw [List.dropLast_cons_of_ne_nil (by simp)] at hp
      rcases List.mem_cons.mp hp with hfst | hrec
      · have hlt : x + min DRIVE_CHUNK_SIZE (total - x) < total := by
          by_contra hge
          have := (chunkRangesFrom_eq_nil total
            (x + min DRIVE_CHUNK_SIZE (total - x))).mpr (by omega)
          rw [this] at hrest
          exact List.cons_ne_nil _ _ hrest.symm
        have h1 : (0:Nat) < DRIVE_CHUNK_SIZE := by decide
        subst hfst
        simp only
        omega
      · exact ih p (by rw [hrest]; exact hrec)
  | case2 x hx =>
    rw [chunkRangesFrom]
    simp only [dif_neg hx, List.dropLast_nil, List.not_mem_nil,
      false_implies, implies_true]

/-- Every chunk has positive size and size at most `DRIVE_CHUNK_SIZE`. -/
theorem chunkRangesFrom_sizes (total committed : Nat) :
    ∀ p ∈ chunkRangesFrom total committed, 0 < p.2 ∧ p.2 ≤ DRIVE_CHUNK_SIZE := by
  induction committed using chunkRangesFrom.induct total with
  | case1 x hx sz ih =>
    rw [chunkRangesFrom]
    simp only [dif_pos hx]
    intro p hp
    rcases List.mem_cons.mp hp with hfst | hrec
    · have h1 : (0:Nat) < DRIVE_CHUNK_SIZE := by decide
      subst hfst
      constructor <;> simp only [] <;> omega
    · exact ih p hrec
  | case2 x hx =>
    rw [chunkRangesFrom]
    simp only [dif_neg hx, List.not_mem_nil, false_implies, implies_true]

/-- The chunk sizes sum to the remaining byte count. -/
theorem chunkRangesFrom_sum (total committed : Nat) :
    ((chunkRangesFrom total committed).map Prod.snd).sum = total - committed := by
  induction committed using chunkRangesFrom.induct total with
  | case1 x hx sz ih =>
    rw [chunkRangesFrom]
    simp only [dif_pos hx, List.map_cons, List.sum_cons]
    rw [ih]
    have h1 : (0:Nat) < DRIVE_CHUNK_SIZE := by decide
    omega
  | case2 x hx =>
    rw [chunkRangesFrom]
    simp only [dif_neg hx, List.map_nil, List.sum_nil]
    omega

/-- The chunks are contiguous: each starts where the previous ended. -/
theorem chunkRangesFrom_contiguous (total committed : Nat) :
    contiguousFrom committed (chunkRangesFrom total committed) := by
  induction committed using chunkRangesFrom.induct total with
  | case1 x hx sz ih =>
    rw [chunkRangesFrom]
    simp only [dif_pos hx]
    exact ⟨rfl, ih⟩
  | case2 x hx =>
    rw [chunkRangesFrom]
    simp only [dif_neg hx]
    trivial

/-- C1: for a resumable upload of a file of total size `S`,
`uploadResumableFromFile` issues chunk PUT requests whose ranges partition the
byte range `[0, S)`: the flattened ranges are exactly the bytes `0, …, S-1` in
order (no overlap, no gap), `committedBytes` starts at 0 and advances by
exactly the bytes read of each accepted chunk, every chunk except possibly the
last has size exactly 8 MiB, every chunk is nonempty and at most 8 MiB, the
sizes sum to exactly `S`, and each chunk `(start, size)` is sent with
`Content-Range: bytes start-(start+size-1)/S`. -/
theorem c1_resumable_chunks_partition (S : Nat) :
    ((chunkRangesFrom S 0).map (fun c => List.range' c.1 c.2)).flatten
        = List.range S
    ∧ contiguousFrom 0 (chunkRangesFrom S 0)
    ∧ (∀ p ∈ (chunkRangesFrom S 0).dropLast, p.2 = DRIVE_CHUNK_SIZE)
    ∧ (∀ p ∈ chunkRangesFrom S 0, 0 < p.2 ∧ p.2 ≤ DRIVE_CHUNK_SIZE)
    ∧ ((chunkRangesFrom S 0).map Prod.snd).sum = S
    ∧ (∀ p ∈ chunkRangesFrom S 0,
        contentRangeOf S p = ⟨p.1, p.1 + p.2 - 1, S⟩) := by
  refine ⟨?_, chunkRangesFrom_contiguous S 0, chunkRangesFrom_dropLast S 0,
    chunkRangesFrom_sizes S 0, ?_, fun p _ => rfl⟩
  · rw [chunkRangesFrom_flatten, List.range_eq_range', Nat.sub_zero]
  · rw [chunkRangesFrom_sum, Nat.sub_zero]

/-- Concrete evaluation helper: a 3-byte file gives a single chunk `(0, 3)`. -/
theorem chunkRangesFrom_three : chunkRangesFrom 3 0 = [(0, 3)] := by
  rw [chunkRangesFrom]
  norm_num [DRIVE_CHUNK_SIZE, chunkRangesFrom_eq_nil]

/-- Witness for C1 at the concrete size `S = 3`: the single chunk `(0, 3)` is a
member, has positive size within bound, and the sizes sum to 3. -/
theorem c1_resumable_chunks_partition_witness :
    (0, 3) ∈ chunkRangesFrom 3 0
    ∧ (0 < (0, 3).2 ∧ (0, 3).2 ≤ DRIVE_CHUNK_SIZE)
    ∧ ((chunkRangesFrom 3 0).map Prod.snd).sum = 3 :=
  have hmem : (0, 3) ∈ chunkRangesFrom 3 0 := by
    rw [chunkRangesFrom_three]; exact List.mem_singleton.mpr rfl
  ⟨hmem, (c1_resumable_chunks_partition 3).2.2.2.1 (0, 3) hmem,
    (c1_resumable_chunks_partition 3).2.2.2.2.1⟩

/-! ## C2: retry policy theorems -/

/-- The jitter draw `Math.floor(Math.random() * 500)` (line 40), modelled with
the random draw `r ∈ [0, 1)` made explicit. -/
def jitterOfRandom (r : ℚ) : ℤ := ⌊r * 500⌋

/-- The retry loop sleeps at most `fuel - 1` times, provided at least
`DRIVE_MAX_RETRIES` attempts fit in `attempt + fuel - 1`. -/
theorem retryRun_delays_le {α : Type} (outcomes : Nat → AttemptOutcome α)
    (jitter : Nat → Nat) :
    ∀ fuel attempt, DRIVE_MAX_RETRIES + 1 ≤ attempt + fuel →
      (retryRun outcomes jitter attempt fuel).2.length ≤ fuel - 1 := by
  intro fuel
  induction fuel with
  | zero =>
    intro a _
    simp [retryRun]
  | succ f ih =>
    intro a ha
    cases houtcome : outcomes a with
    | ok v => simp [retryRun, houtcome]
    | fail e =>
      by_cases hCond : DRIVE_MAX_RETRIES ≤ a ∨ e.retriable = false
      · simp [retryRun, houtcome, hCond]
      · have ha4 : a < DRIVE_MAX_RETRIES := by
          rcases Nat.lt_or_ge a DRIVE_MAX_RETRIES with h | h
          · exact h
          · exact absurd (Or.inl h) hCond
        have hf : 1 ≤ f := by
          unfold DRIVE_MAX_RETRIES at ha4 ha
          omega
        have hrec := ih (a + 1) (by omega)
        simp only [retryRun, houtcome, if_neg hCond, List.length_cons]
        omega

/-- C2: every upload attempt loop (simple and chunked) retries only errors
marked retriable — network failure, timeout, or HTTP status in
{408, 429, 500, 502, 503, 504} — up to the `DRIVE_MAX_RETRIES = 4` attempt
ceiling: a non-retriable first failure is thrown immediately with no sleep; if
every attempt fails with a retriable error the loop throws the fourth error
after exactly three sleeps; the loop never sleeps more than three times; the
wait before the `a`-th retry equals a positive server-supplied Retry-After
delay when present, and otherwise `min(30000, 1000·2^(a-1)) + jitter` where
the jitter `⌊r·500⌋` lies in `[0, 500)` for a random draw `r ∈ [0, 1)`. -/
theorem c2_retry_policy {α : Type} (outcomes : Nat → AttemptOutcome α)
    (jitter : Nat → Nat) (e : UploadErr) (s v a : Nat) (ra : Option Nat)
    (r : ℚ) :
    (shouldRetryStatus s = true ↔
      s = 408 ∨ s = 429 ∨ s = 500 ∨ s = 502 ∨ s = 503 ∨ s = 504)
    ∧ (httpFailureErr s ra).retriable = shouldRetryStatus s
    ∧ networkErr.retriable = true
    ∧ timeoutErr.retriable = true
    ∧ abortErr.retriable = false
    ∧ (outcomes 1 = .fail e → e.retriable = false →
        uploadAttemptLoop outcomes jitter = (Except.error e, []))
    ∧ ((∀ k, outcomes k = .fail e) → e.retriable = true →
        uploadAttemptLoop outcomes jitter =
          (Except.error e,
            [buildRetryDelayMs 1 e.retryAfterMs (jitter 1),
             buildRetryDelayMs 2 e.retryAfterMs (jitter 2),
             buildRetryDelayMs 3 e.retryAfterMs (jitter 3)]))
    ∧ (uploadAttemptLoop outcomes jitter).2.length ≤ DRIVE_MAX_RETRIES - 1
    ∧ (0 < v → buildRetryDelayMs a (some v) (jitter a) = v)
    ∧ buildRetryDelayMs a none (jitter a)
        = min 30000 (1000 * 2 ^ (a - 1)) + jitter a
    ∧ (0 ≤ r → r < 1 → 0 ≤ jitterOfRandom r ∧ jitterOfRandom r < 500) := by
  refine ⟨?_, rfl, rfl, rfl, rfl, ?_, ?_, ?_, ?_, rfl, ?_⟩
  · simp only [shouldRetryStatus, Bool.or_eq_true, beq_iff_eq]
    tauto
  · intro h1 h2
    simp [uploadAttemptLoop, retryRun, h1, h2, DRIVE_MAX_RETRIES]
  · intro h1 h2
    simp [uploadAttemptLoop, retryRun, h1 1, h1 2, h1 3, h1 4, h2,
      DRIVE_MAX_RETRIES]
  · exact retryRun_delays_le outcomes jitter DRIVE_MAX_RETRIES 1 (by decide)
  · intro hv
    simp [buildRetryDelayMs, hv]
  · intro h0 h1
    unfold jitterOfRandom
    constructor
    · positivity
    · have : r * 500 < 500 := by nlinarith
      exact Int.floor_lt.mpr (by push_cast; linarith)

/-- Witness for C2: four consecutive retriable 503 failures with zero jitter
exhaust the ceiling after three backoff sleeps of 1000, 2000 and 4000 ms. -/
theorem c2_retry_policy_witness :
    @uploadAttemptLoop Unit
        (fun _ => AttemptOutcome.fail (UploadErr.mk (some 503) true none))
        (fun _ => 0) =
      (Except.error (UploadErr.mk (some 503) true none),
        [buildRetryDelayMs 1 none 0, buildRetryDelayMs 2 none 0,
         buildRetryDelayMs 3 none 0]) :=
  (@c2_retry_policy Unit
      (fun _ => AttemptOutcome.fail (UploadErr.mk (some 503) true none))
      (fun _ => 0) (UploadErr.mk (some 503) true none) 503 1 1 none
      0).2.2.2.2.2.2.1 (fun _ => rfl) rfl

/-! ## C3: upload batch counters
(src/dist/premiere-extension/client/js/upload-helper.js, `processSingleFile`
lines 298-505 and `worker` lines 509-523) -/

/-- The disposition of one file of the batch, read off `processSingleFile`:
* `notPicked` — the global cancel flag was set, so the worker loop (line 511)
  or the entry check (line 300) returned without touching any counter;
* `preCancelled` — the file was in `cancelledFiles` at entry (lines 305-317):
  `cancelledFilesCount++; completedFiles++`;
* `finished skipped` — `uploadFileWithProgress` returned (lines 401-408):
  `skippedFilesCount++` or `uploadedFilesCount++`, plus `completedFiles++`;
* `cancelledDuring` — the catch block saw a cancellation flag (lines 458-482):
  `cancelledFilesCount++; completedFiles++`;
* `failed` — the catch block otherwise (lines 484-504):
  `failedFilesCount++; completedFiles++`. -/
inductive FileOutcome where
  | notPicked
  | preCancelled
  | finished (skipped : Bool)
  | cancelledDuring
  | failed
deriving DecidableEq, Repr

/-- The five counters of `uploadProjectWithConcurrency` (lines 77-82). -/
structure BatchCounters where
  uploaded : Nat
  skipped : Nat
  failed : Nat
  cancelled : Nat
  completed : Nat
deriving DecidableEq, Repr

/-- The counter increments performed by `processSingleFile` for one file. -/
def applyOutcome (cs : BatchCounters) : FileOutcome → BatchCounters
  | .notPicked => cs
  | .preCancelled =>
    { cs with cancelled := cs.cancelled + 1, completed := cs.completed + 1 }
  | .finished true =>
    { cs with skipped := cs.skipped + 1, completed := cs.completed + 1 }
  | .finished false =>
    { cs with uploaded := cs.uploaded + 1, completed := cs.completed + 1 }
  | .cancelledDuring =>
    { cs with cancelled := cs.cancelled + 1, completed := cs.completed + 1 }
  | .failed =>
    { cs with failed := cs.failed + 1, completed := cs.completed + 1 }

/-- Counter state after a batch whose files had the given dispositions
(all counters start at 0, line 77-82). -/
def runBatchCounters (outcomes : List FileOutcome) : BatchCounters :=
  outcomes.foldl applyOutcome ⟨0, 0, 0, 0, 0⟩

/-- `uploaded + skipped + failed + cancelled`. -/
def bucketSum (cs : BatchCounters) : Nat :=
  cs.uploaded + cs.skipped + cs.failed + cs.cancelled

/-- A batch of `n` files in which the global cancel flag was set after `k`
files had been picked up: the worker loop (line 511) never processes the
remaining files, so they receive `notPicked`. -/
def globalCancelRun (k : Nat) (perFile : Nat → FileOutcome) (n : Nat) :
    List FileOutcome :=
  (List.range n).map fun i => if i < k then perFile i else .notPicked

/-- Every processed file lands in exactly one bucket. -/
theorem applyOutcome_bucketSum (cs : BatchCounters) (o : FileOutcome)
    (ho : o ≠ FileOutcome.notPicked) :
    bucketSum (applyOutcome cs o) = bucketSum cs + 1 := by
  cases o with
  | notPicked => exact absurd rfl ho
  | preCancelled => simp only [applyOutcome, bucketSum]; omega
  | finished b =>
    cases b <;> simp only [applyOutcome, bucketSum] <;> omega
  | cancelledDuring => simp only [applyOutcome, bucketSum]; omega
  | failed => simp only [applyOutcome, bucketSum]; omega

/-- Folding the counter increments over a batch with no `notPicked` entry adds
exactly the batch length to the bucket sum. -/
theorem runBatch_bucketSum_aux :
    ∀ (outcomes : List FileOutcome) (cs : BatchCounters),
      FileOutcome.notPicked ∉ outcomes →
      bucketSum (outcomes.foldl applyOutcome cs) = bucketSum cs + outcomes.length := by
  intro outcomes
  induction outcomes with
  | nil =>
    intro cs _
    simp
  | cons o rest ih =>
    intro cs h
    have ho : o ≠ FileOutcome.notPicked := by
      intro he
      exact h (by rw [← he]; exact List.mem_cons_self o rest)
    have hrest : FileOutcome.notPicked ∉ rest :=
      fun hm => h (List.mem_cons_of_mem o hm)
    simp only [List.foldl_cons, List.length_cons]
    rw [ih _ hrest, applyOutcome_bucketSum cs o ho]
    omega

/-- C3 counterexample: in a two-file batch where the global cancel flag is set
after the first file uploads, the second file is never picked up by any worker
and lands in no bucket, so `uploaded + skipped + failed + cancelled = 1 ≠ 2`:
the claimed conservation fails for globally cancelled batches (the function
then returns `{success: false, cancelled: true}` without the counters). -/
theorem c3_counterexample :
    bucketSum (runBatchCounters
      (globalCancelRun 1 (fun _ => FileOutcome.finished false) 2)) ≠ 2 := by
  decide

/-- C3 (amended): for every push batch that is not globally cancelled — so
every file is picked up and processed, individual per-file cancellations
included — the counters satisfy
`uploaded + skipped + failed + cancelled = totalSelected`, and each processed
file is counted in exactly one bucket. -/
theorem c3_count_conservation (outcomes : List FileOutcome)
    (h : FileOutcome.notPicked ∉ outcomes) :
    bucketSum (runBatchCounters outcomes) = outcomes.length
    ∧ ∀ (cs : BatchCounters) (o : FileOutcome), o ≠ FileOutcome.notPicked →
        bucketSum (applyOutcome cs o) = bucketSum cs + 1 := by
  refine ⟨?_, fun cs o ho => applyOutcome_bucketSum cs o ho⟩
  unfold runBatchCounters
  rw [runBatch_bucketSum_aux outcomes _ h]
  simp [bucketSum]

/-- Witness for C3 at a concrete five-file batch covering all four buckets. -/
theorem c3_count_conservation_witness :
    bucketSum (runBatchCounters
      [FileOutcome.finished false, FileOutcome.finished true,
       FileOutcome.preCancelled, FileOutcome.failed,
       FileOutcome.cancelledDuring]) = 5 :=
  (c3_count_conservation _ (by decide)).1

/-! ## C4: descriptor-last ordering
(src/unnamed/part_003 `handlePullAll` lines 1846-1907,
src/unnamed/part_007 `downloadProjectWithProgress` lines 624-757) -/

/-- A remote file descriptor as listed by `GoogleDrive.listFilesInFolder`
(`size` already parsed via `parseInt(file.size) || 0`). -/
structure DriveFile where
  id : String
  name : String
  size : Nat
deriving DecidableEq, Repr

/-- `file.name.endsWith('.prproj')` (part_003 lines 1848-1849), embedded as
the equivalent suffix test on the string's character list (Lean's
`String.endsWith` does not evaluate under `decide`). -/
def isPrprojName (name : String) : Bool := ".prproj".data.isSuffixOf name.data

/-- `handlePullAll` sorts with the comparator `aIsPrproj - bIsPrproj`
(part_003 lines 1847-1851); `Array.prototype.sort` is stable, so with this
0/1 key the result is all non-`.prproj` files in original order followed by
all `.prproj` files in original order.  The loop then transfers the sorted
list sequentially (one awaited `handleSingleFilePull` at a time). -/
def pullAllSortedFiles (files : List DriveFile) : List DriveFile :=
  files.filter (fun f => !(isPrprojName f.name))
    ++ files.filter (fun f => isPrprojName f.name)

/-- Per-entry classification of `downloadProjectWithProgress`
(part_007 lines 643-708): with a local file present, equal sizes skip and
different sizes record a conflict; otherwise the entry is downloaded. -/
inductive PullAction where
  | skip
  | conflict
  | download
deriving DecidableEq, Repr

/-- `if (localExists) { if (localSize === driveSize) skip else conflict } else download`. -/
def classifyPullEntry (localExists : Bool) (localSize driveSize : Nat) :
    PullAction :=
  if localExists then
    (if localSize = driveSize then .skip else .conflict)
  else .download

/-- `downloadProjectWithProgress` iterates `driveFiles` in remote listing
order (line 624) with no descriptor-last sort; the files actually transferred
are those classified `download`, in listing order. -/
def downloadTransferOrder (localExists : DriveFile → Bool)
    (localSize : DriveFile → Nat) (files : List DriveFile) : List DriveFile :=
  files.filter fun f =>
    classifyPullEntry (localExists f) (localSize f) f.size = PullAction.download

/-- In a sequential transfer of `l`, the descriptor is transferred last iff
every `.prproj` entry sits at the final position. -/
def descriptorLast (l : List DriveFile) : Prop :=
  ∀ i : Fin l.length, isPrprojName (l.get i).name = true →
    (i : Nat) = l.length - 1

/-- C4 counterexample: in `downloadProjectWithProgress`, a pull batch listed as
`[a.prproj, b.mov]` with no local copies transfers the descriptor first, not
last — the claimed descriptor-last ordering fails on this pull path. -/
theorem c4_counterexample :
    ¬ descriptorLast (downloadTransferOrder (fun _ => false) (fun _ => 0)
      [⟨"1", "a.prproj", 10⟩, ⟨"2", "b.mov", 20⟩]) := by
  unfold descriptorLast downloadTransferOrder classifyPullEntry
  decide

/-- C4 (amended): in the `handlePullAll` pull path, which sorts the selected
files descriptor-last and transfers them sequentially, a batch containing
exactly one `.prproj` file places it last: every element before the last
position is not a `.prproj`, and the last element is the descriptor.  The
`downloadProjectWithProgress` path transfers in remote listing order and gives
no such guarantee. -/
theorem c4_pullall_descriptor_last (files : List DriveFile)
    (h : (files.filter fun f => isPrprojName f.name).length = 1) :
    (∀ f ∈ (pullAllSortedFiles files).dropLast, isPrprojName f.name = false)
    ∧ (pullAllSortedFiles files).getLast?
        = (files.filter fun f => isPrprojName f.name).head? := by
  obtain ⟨d, hd⟩ := List.length_eq_one.mp h
  unfold pullAllSortedFiles
  rw [hd]
  constructor
  · intro f hf
    rw [List.dropLast_concat] at hf
    have := List.of_mem_filter hf
    simpa using this
  · rw [List.getLast?_concat]
    rfl

/-- Witness for C4 at a concrete two-file batch. -/
theorem c4_pullall_descriptor_last_witness :
    (∀ f ∈ (pullAllSortedFiles
        [⟨"2", "b.mov", 20⟩, ⟨"1", "a.prproj", 10⟩]).dropLast,
      isPrprojName f.name = false)
    ∧ (pullAllSortedFiles
        [⟨"2", "b.mov", 20⟩, ⟨"1", "a.prproj", 10⟩]).getLast?
        = ([⟨"2", "b.mov", 20⟩, ⟨"1", "a.prproj", 10⟩].filter
            fun f => isPrprojName f.name).head? :=
  c4_pullall_descriptor_last
    [⟨"2", "b.mov", 20⟩, ⟨"1", "a.prproj", 10⟩] (by decide)

/-! ## C5: pull conflict classification
(src/unnamed/part_007, `downloadProjectWithProgress` lines 643-708) -/

/-- The conflict record pushed onto `downloadState.conflicts` (lines 694-700):
`{name, localPath, driveFile, localSize, driveSize}`. -/
structure PullConflict where
  name : String
  localPath : String
  driveFile : DriveFile
  localSize : Nat
  driveSize : Nat
deriving DecidableEq, Repr

/-- Observable effect of one iteration of the download loop on the entry's
file: how much `skippedFiles` grows, the conflict recorded (if any), and
whether the local file at the target path was written. -/
structure PullStepEffect where
  skippedInc : Nat
  conflictRecorded : Option PullConflict
  wroteLocalFile : Bool
deriving DecidableEq, Repr

/-- The per-entry body of the download loop (lines 624-757): the target path
is `projectPath + "\\" + driveFile.name` (line 626); when the local file
exists, equal sizes skip (lines 680-690, no write), different sizes record a
conflict built exactly from `{name, targetPath, driveFile, localSize,
driveSize}` and continue (lines 691-707, no write); only when no local file
exists is the body downloaded and written (`downloadAndWriteOk` abstracts
whether `GoogleDrive.downloadFile` and `cep.fs.writeFile` succeed). -/
def pullEntryStep (projectPath : String) (f : DriveFile) (localExists : Bool)
    (localSize : Nat) (downloadAndWriteOk : Bool) : PullStepEffect :=
  if localExists then
    if localSize = f.size then ⟨1, none, false⟩
    else ⟨0, some ⟨f.name, projectPath ++ "\\" ++ f.name, f, localSize, f.size⟩,
      false⟩
  else if downloadAndWriteOk then ⟨0, none, true⟩ else ⟨0, none, false⟩

/-- C5: for every remote entry with an existing local file, the download
orchestrator skips it as synced iff local size equals remote size (equivalently
iff the change detector classifies it `skip`); when the sizes differ it records
exactly the conflict `{name, localPath, driveFile, localSize, driveSize}` and
performs no transfer; in either case it never writes (hence never deletes or
overwrites) the local file. -/
theorem c5_conflict_classification (projectPath : String) (f : DriveFile)
    (localSize : Nat) (ok : Bool) :
    ((pullEntryStep projectPath f true localSize ok).skippedInc = 1
      ↔ localSize = f.size)
    ∧ ((pullEntryStep projectPath f true localSize ok).skippedInc = 1
      ↔ classifyPullEntry true localSize f.size = PullAction.skip)
    ∧ (localSize ≠ f.size →
        pullEntryStep projectPath f true localSize ok =
          ⟨0, some ⟨f.name, projectPath ++ "\\" ++ f.name, f, localSize, f.size⟩,
            false⟩)
    ∧ (pullEntryStep projectPath f true localSize ok).wroteLocalFile = false := by
  unfold pullEntryStep classifyPullEntry
  by_cases hsz : localSize = f.size <;> simp [hsz]

/-- Witness for C5: a 5-byte local copy of a 10-byte remote entry yields
exactly the conflict record and no write. -/
theorem c5_conflict_classification_witness :
    pullEntryStep "C:\\Sync" ⟨"x", "a.mov", 10⟩ true 5 false =
      ⟨0, some ⟨"a.mov", "C:\\Sync" ++ "\\" ++ "a.mov", ⟨"x", "a.mov", 10⟩, 5, 10⟩,
        false⟩ :=
  (c5_conflict_classification "C:\\Sync" ⟨"x", "a.mov", 10⟩ 5 false).2.2.1
    (by decide)

/-! ## C6, C7, C10: `uploadFileWithProgress` dispatch
(src/unnamed/part_007, lines 363-413, 81-121, 209-234) -/

/-- The remote file returned by `findExistingDriveFile` (lines 107-121),
fields `id` and `md5Checksum` of the Drive metadata. -/
structure ExistingRemote where
  id : String
  md5Checksum : Option String
deriving DecidableEq, Repr

/-- Whether the upload is skipped by dedup or proceeds to a body transfer. -/
inductive UploadPathDecision where
  | skipUnchanged
  | transfer
deriving DecidableEq, Repr

/-- The dedup check of `uploadFileWithProgress` (lines 371-378):
`if (existingId && existingFile?.md5Checksum && localMd5 &&
existingFile.md5Checksum === localMd5) return {skipped: true}`.
JS truthiness of the string operands (empty string is falsy) is modelled by
the `isEmpty` guards; a missing field defaults to the falsy `""`. -/
def dedupDecision (existing : Option ExistingRemote) (localMd5 : Option String) :
    UploadPathDecision :=
  let existingId := (existing.map (·.id)).getD ""
  let remoteMd5 := (existing.bind (·.md5Checksum)).getD ""
  let localHash := localMd5.getD ""
  if !existingId.isEmpty && !remoteMd5.isEmpty && !localHash.isEmpty
      && remoteMd5 == localHash
  then .skipUnchanged else .transfer

/-- Which body transfer (if any) the dispatch performs. -/
inductive BodyTransferKind where
  | noBody
  | simple
  | resumable
deriving DecidableEq, Repr

/-- The `{skipped, body}` outcome of a (successful) `uploadFileWithProgress`
call. -/
structure UploadFlowResult where
  skipped : Bool
  body : BodyTransferKind
deriving DecidableEq, Repr

/-- The dispatch of `uploadFileWithProgress` (lines 371-403): dedup skip first
(lines 375-378), then
`shouldUseResumable = fileIsPathInput && inputSize >= DRIVE_RESUMABLE_THRESHOLD`
(lines 382-383) chooses between the resumable path (line 390) and the simple
single-request PATCH path (line 403). -/
def uploadFlow (existing : Option ExistingRemote) (localMd5 : Option String)
    (isPathInput : Bool) (inputSize : Nat) : UploadFlowResult :=
  match dedupDecision existing localMd5 with
  | .skipUnchanged => ⟨true, .noBody⟩
  | .transfer =>
    if isPathInput && decide (DRIVE_RESUMABLE_THRESHOLD ≤ inputSize)
    then ⟨false, .resumable⟩
    else ⟨false, .simple⟩

/-- The declaration headers of the resumable session start request
(`createResumableSession`, lines 209-234): `X-Upload-Content-Length:
String(totalSize)` and `X-Upload-Content-Type: mimeType`, where the caller
(line 305) passes `mimeType || 'application/octet-stream'`. -/
structure ResumableStartRequest where
  declaredContentLength : Nat
  declaredContentType : String
deriving DecidableEq, Repr

/-- The start request sent for a resumable upload of `totalSize` bytes. -/
def resumableStartRequest (mimeType : String) (totalSize : Nat) :
    ResumableStartRequest :=
  ⟨totalSize, if mimeType.isEmpty then "application/octet-stream" else mimeType⟩

/-- C7 counterexample: an upload whose payload is an in-memory value (string or
byte array, e.g. the manifest JSON) of size exactly 8 MiB is dispatched to the
single-request simple path, not the resumable path — `shouldUseResumable` also
requires `fileIsPathInput`, which the claim omits. -/
theorem c7_counterexample :
    DRIVE_RESUMABLE_THRESHOLD ≤ DRIVE_RESUMABLE_THRESHOLD
    ∧ (uploadFlow none none false DRIVE_RESUMABLE_THRESHOLD).body
        ≠ BodyTransferKind.resumable
    ∧ (uploadFlow none none false DRIVE_RESUMABLE_THRESHOLD).body
        = BodyTransferKind.simple := by
  decide

/-- C7 (amended): for uploads that are not dedup-skipped, the chunked
resumable path is taken iff the input is a file-path input of size ≥ 8 MiB;
any input below 8 MiB (and any in-memory input) uses the single-request simple
path; the resumable session start request declares the file's total size and
its MIME type (defaulting to `application/octet-stream`) up front. -/
theorem c7_resumable_threshold (existing : Option ExistingRemote)
    (localMd5 : Option String) (isPathInput : Bool) (inputSize : Nat)
    (mimeType : String)
    (hnoskip : dedupDecision existing localMd5 = UploadPathDecision.transfer) :
    ((uploadFlow existing localMd5 isPathInput inputSize).body
        = BodyTransferKind.resumable
      ↔ isPathInput = true ∧ DRIVE_RESUMABLE_THRESHOLD ≤ inputSize)
    ∧ (inputSize < DRIVE_RESUMABLE_THRESHOLD →
        (uploadFlow existing localMd5 isPathInput inputSize).body
          = BodyTransferKind.simple)
    ∧ (resumableStartRequest mimeType inputSize).declaredContentLength
        = inputSize
    ∧ (mimeType ≠ "" →
        (resumableStartRequest mimeType inputSize).declaredContentType
          = mimeType) := by
  refine ⟨?_, ?_, rfl, ?_⟩
  · unfold uploadFlow
    rw [hnoskip]
    by_cases hp : isPathInput = true
    · by_cases hs : DRIVE_RESUMABLE_THRESHOLD ≤ inputSize
      · simp [hp, hs]
      · simp [hp, hs]
    · simp [hp]
  · intro hlt
    unfold uploadFlow
    rw [hnoskip]
    have : ¬ DRIVE_RESUMABLE_THRESHOLD ≤ inputSize := by omega
    simp [this]
  · intro hne
    unfold resumableStartRequest
    simp [String.isEmpty_iff, hne]

/-- Witness for C7: a file-path input of exactly 8 MiB with no pre-existing
remote copy takes the resumable path. -/
theorem c7_resumable_threshold_witness :
    (uploadFlow none none true DRIVE_RESUMABLE_THRESHOLD).body
      = BodyTransferKind.resumable :=
  ((c7_resumable_threshold none none true DRIVE_RESUMABLE_THRESHOLD
    "video/mp4" (by decide)).1).mpr ⟨rfl, Nat.le_refl _⟩

/-- The disposition `processSingleFile` records for a file whose upload call
returns successfully (upload-helper.js lines 397-408): `skippedFilesCount++`
when the transfer reported `{skipped: true}`, else `uploadedFilesCount++`. -/
def secondPushOutcome (existing : Option ExistingRemote)
    (localMd5 : Option String) (isPathInput : Bool) (inputSize : Nat) :
    FileOutcome :=
  FileOutcome.finished (uploadFlow existing localMd5 isPathInput inputSize).skipped

/-- Folding a batch of all-skipped outcomes leaves `uploaded` unchanged and
adds the batch length to `skipped`. -/
theorem runBatch_allSkipped_aux :
    ∀ (outcomes : List FileOutcome) (cs : BatchCounters),
      (∀ o ∈ outcomes, o = FileOutcome.finished true) →
      (outcomes.foldl applyOutcome cs).uploaded = cs.uploaded
      ∧ (outcomes.foldl applyOutcome cs).skipped = cs.skipped + outcomes.length := by
  intro outcomes
  induction outcomes with
  | nil =>
    intro cs _
    simp
  | cons o rest ih =>
    intro cs h
    have ho : o = FileOutcome.finished true := h o (List.mem_cons_self o rest)
    have hrest : ∀ o' ∈ rest, o' = FileOutcome.finished true :=
      fun o' hm => h o' (List.mem_cons_of_mem o hm)
    subst ho
    simp only [List.foldl_cons, List.length_cons]
    have := ih (applyOutcome cs (FileOutcome.finished true)) hrest
    refine ⟨?_, ?_⟩
    · rw [this.1]
      rfl
    · rw [this.2]
      simp [applyOutcome]
      omega

/-- C6: for every uploaded file whose remote copy of the same name exists with
`md5Checksum` equal to the locally computed MD5 hash, the dedup check skips the
transfer: the decision is `skipUnchanged`, the call returns
`{skipped: true}` with no body transfer of any kind; consequently a second push
of an unchanged `N`-file set (every file having such a matching remote copy)
yields `uploaded = 0` and `skipped = N`. -/
theorem c6_dedup_idempotence (pairs : List (ExistingRemote × String))
    (h : ∀ p ∈ pairs, p.1.id ≠ "" ∧ p.1.md5Checksum = some p.2 ∧ p.2 ≠ "") :
    (∀ p ∈ pairs,
      dedupDecision (some p.1) (some p.2) = UploadPathDecision.skipUnchanged)
    ∧ (∀ p ∈ pairs, ∀ (isPathInput : Bool) (inputSize : Nat),
        uploadFlow (some p.1) (some p.2) isPathInput inputSize
          = ⟨true, BodyTransferKind.noBody⟩)
    ∧ (runBatchCounters (pairs.map fun p =>
          secondPushOutcome (some p.1) (some p.2) true 0)).uploaded = 0
    ∧ (runBatchCounters (pairs.map fun p =>
          secondPushOutcome (some p.1) (some p.2) true 0)).skipped
        = pairs.length := by
  have hskip : ∀ p ∈ pairs,
      dedupDecision (some p.1) (some p.2) = UploadPathDecision.skipUnchanged := by
    intro p hp
    obtain ⟨hid, hmd5, hnz⟩ := h p hp
    have hidE : p.1.id.isEmpty = false := by
      cases hie : p.1.id.isEmpty with
      | false => rfl
      | true => exact absurd ((String.isEmpty_iff p.1.id).mp hie) hid
    have hnzE : p.2.isEmpty = false := by
      cases hie : p.2.isEmpty with
      | false => rfl
      | true => exact absurd ((String.isEmpty_iff p.2).mp hie) hnz
    unfold dedupDecision
    simp [Option.map_some', Option.some_bind, hmd5, hidE, hnzE]
  have hflow : ∀ p ∈ pairs, ∀ (isPathInput : Bool) (inputSize : Nat),
      uploadFlow (some p.1) (some p.2) isPathInput inputSize
        = ⟨true, BodyTransferKind.noBody⟩ := by
    intro p hp isPathInput inputSize
    unfold uploadFlow
    rw [hskip p hp]
  have hout : ∀ o ∈ pairs.map (fun p =>
      secondPushOutcome (some p.1) (some p.2) true 0),
      o = FileOutcome.finished true := by
    intro o ho
    obtain ⟨p, hp, rfl⟩ := List.mem_map.mp ho
    unfold secondPushOutcome
    rw [hflow p hp]
  have haux := runBatch_allSkipped_aux
    (pairs.map fun p => secondPushOutcome (some p.1) (some p.2) true 0)
    ⟨0, 0, 0, 0, 0⟩
  have hcounts := haux hout
  refine ⟨hskip, hflow, ?_, ?_⟩
  · exact hcounts.1
  · rw [runBatchCounters, hcounts.2]
    simp

/-- Witness for C6 at a concrete two-file unchanged set. -/
theorem c6_dedup_idempotence_witness :
    (runBatchCounters
      ([(⟨"idA", some "9e107d9d"⟩, "9e107d9d"),
        (⟨"idB", some "e4d909c2"⟩, "e4d909c2")].map
        (fun p : ExistingRemote × String =>
          secondPushOutcome (some p.1) (some p.2) true 0))).uploaded = 0
    ∧ (runBatchCounters
      ([(⟨"idA", some "9e107d9d"⟩, "9e107d9d"),
        (⟨"idB", some "e4d909c2"⟩, "e4d909c2")].map
        (fun p : ExistingRemote × String =>
          secondPushOutcome (some p.1) (some p.2) true 0))).skipped = 2 :=
  ⟨(c6_dedup_idempotence _ (by decide)).2.2.1,
   (c6_dedup_idempotence _ (by decide)).2.2.2⟩

/-! ## C10: MD5 computation failure is not an error
(src/unnamed/part_007, `computeLocalMd5` lines 81-105) -/

/-- `computeLocalMd5` wraps the whole hash computation in try/catch and
returns `null` on any error (lines 101-104); a successful computation returns
the hex digest.  No error is ever propagated to the caller. -/
def computeLocalMd5Result (hashOutcome : Except String String) : Option String :=
  match hashOutcome with
  | .ok digest => some digest
  | .error _ => none

/-- C10: when the local hash computation fails with any error, the failure is
swallowed (`computeLocalMd5` returns `null`, never throws), the dedup check is
bypassed (the decision is `transfer` regardless of the remote state), and a
full upload is performed: the flow never reports `skipped` and always carries
a body transfer. -/
theorem c10_md5_failure_bypasses_dedup (e : String)
    (existing : Option ExistingRemote) (isPathInput : Bool) (inputSize : Nat) :
    computeLocalMd5Result (Except.error e) = none
    ∧ dedupDecision existing (computeLocalMd5Result (Except.error e))
        = UploadPathDecision.transfer
    ∧ (uploadFlow existing (computeLocalMd5Result (Except.error e))
        isPathInput inputSize).skipped = false
    ∧ (uploadFlow existing (computeLocalMd5Result (Except.error e))
        isPathInput inputSize).body ≠ BodyTransferKind.noBody := by
  have hdec : dedupDecision existing none = UploadPathDecision.transfer := by
    unfold dedupDecision
    have he : "".isEmpty = true := rfl
    simp [he]
  have hflow : (uploadFlow existing none isPathInput inputSize).skipped = false
      ∧ (uploadFlow existing none isPathInput inputSize).body
          ≠ BodyTransferKind.noBody := by
    unfold uploadFlow
    rw [hdec]
    by_cases hc :
        (isPathInput && decide (DRIVE_RESUMABLE_THRESHOLD ≤ inputSize)) = true
    · simp [hc]
    · simp [hc]
  exact ⟨rfl, hdec, hflow.1, hflow.2⟩

/-! ## C8: project descriptor patcher
(src/unnamed/part_003, `handleSingleFilePull` .prproj patch block,
lines 2080-2152) -/

/-- `.toLowerCase()`, embedded as a character-wise lowering of the string's
character list (Lean's `String.map` does not evaluate under `decide`). -/
def lowerStr (s : String) : String := ⟨s.data.map Char.toLower⟩

/-- One fragment of the decompressed project XML, as decomposed by the
absolute-path regex `([A-Z]:\\(?:...\\)*(basename.ext))` (line 2124): either
text the regex does not match, or a path match with its basename capture. -/
inductive PrprojToken where
  | text (s : String)
  | pathMatch (fullPath : String) (basename : String)
deriving DecidableEq, Repr

/-- `availableFiles[lowerBasename]` (line 2130): the recursive folder scan
(lines 2095-2110) indexes full local paths by lowercased basename; the lookup
is modelled on an association list. -/
def lookupIndex (index : List (String × String)) (key : String) :
    Option String :=
  (index.find? (fun kv => kv.1 == key)).map (·.2)

/-- The replacement callback of the regex scan (lines 2126-2138): a matched
absolute path is replaced by the indexed local path, and `patchCount`
incremented, exactly when the lowercased basename is in the index and the
indexed path differs (case-insensitively) from the embedded path; otherwise
the match is returned unchanged.  Returns the output fragment and the count
increment. -/
def patchToken (index : List (String × String)) : PrprojToken → String × Nat
  | .text s => (s, 0)
  | .pathMatch full base =>
    match lookupIndex index (lowerStr base) with
    | some newPath =>
      if lowerStr newPath ≠ lowerStr full then (newPath, 1) else (full, 0)
    | none => (full, 0)

/-- The fragment's original text. -/
def renderToken : PrprojToken → String
  | .text s => s
  | .pathMatch full _ => full

/-- The original document text. -/
def renderDocument : List PrprojToken → String
  | [] => ""
  | t :: rest => renderToken t ++ renderDocument rest

/-- `xmlString.replace(pathPattern, …)` over the whole document: the patched
text and the total `patchCount`. -/
def patchDocument (index : List (String × String)) :
    List PrprojToken → String × Nat
  | [] => ("", 0)
  | t :: rest =>
    let r := patchToken index t
    let rs := patchDocument index rest
    (r.1 ++ rs.1, r.2 + rs.2)

/-- The write-back step (lines 2139-2145): `if (patchCount > 0)` the patched
text is recompressed (`gzip`) and written over the descriptor; otherwise the
file keeps the downloaded bytes written at line 2076. -/
def patchedDiskContent {β : Type} (gzip : String → β) (downloadedBytes : β)
    (index : List (String × String)) (doc : List PrprojToken) : β :=
  if 0 < (patchDocument index doc).2 then gzip (patchDocument index doc).1
  else downloadedBytes

/-- Case lemma: a basename absent from the index leaves the match unchanged. -/
theorem patchToken_lookup_none (index : List (String × String))
    (full base : String)
    (hl : lookupIndex index (lowerStr base) = none) :
    patchToken index (.pathMatch full base) = (full, 0) := by
  simp only [patchToken, hl]

/-- Case lemma: an indexed basename with a (case-insensitively) different
local path is rewritten to the local path, counting one substitution. -/
theorem patchToken_lookup_some_ne (index : List (String × String))
    (full base newPath : String)
    (hl : lookupIndex index (lowerStr base) = some newPath)
    (hd : lowerStr newPath ≠ lowerStr full) :
    patchToken index (.pathMatch full base) = (newPath, 1) := by
  simp only [patchToken, hl, if_pos hd]

/-- Case lemma: an indexed basename whose local path coincides
(case-insensitively) with the embedded path is left unchanged. -/
theorem patchToken_lookup_some_eq (index : List (String × String))
    (full base newPath : String)
    (hl : lookupIndex index (lowerStr base) = some newPath)
    (hd : ¬ lowerStr newPath ≠ lowerStr full) :
    patchToken index (.pathMatch full base) = (full, 0) := by
  simp only [patchToken, hl, if_neg hd]

/-- A token contributing no count is emitted unchanged. -/
theorem patchToken_count_zero (index : List (String × String))
    (t : PrprojToken) (h : (patchToken index t).2 = 0) :
    (patchToken index t).1 = renderToken t := by
  cases t with
  | text s => rfl
  | pathMatch full base =>
    cases hl : lookupIndex index (lowerStr base) with
    | none => rw [patchToken_lookup_none index full base hl]; rfl
    | some newPath =>
      by_cases hne : lowerStr newPath ≠ lowerStr full
      · rw [patchToken_lookup_some_ne index full base newPath hl hne] at h
        exact absurd h one_ne_zero
      · rw [patchToken_lookup_some_eq index full base newPath hl hne]
        rfl

/-- With a zero total count the patched text is the original text. -/
theorem patchDocument_count_zero (index : List (String × String)) :
    ∀ doc : List PrprojToken, (patchDocument index doc).2 = 0 →
      (patchDocument index doc).1 = renderDocument doc := by
  intro doc
  induction doc with
  | nil => intro _; rfl
  | cons t rest ih =>
    intro h
    unfold patchDocument at h ⊢
    simp only at h ⊢
    have ht : (patchToken index t).2 = 0 := by omega
    have hr : (patchDocument index rest).2 = 0 := by omega
    rw [patchToken_count_zero index t ht, ih hr]
    rfl

/-- C8: the patcher rewrites an embedded absolute path iff the path's basename
(lowercased) is present in the recursive index of the local target folder and
the indexed local path differs (case-insensitively) from the embedded path —
in which case the match becomes exactly the indexed path and the count grows
by one; a basename absent from the index leaves the match unchanged; the
descriptor is recompressed and rewritten on disk iff at least one substitution
occurred, and with zero substitutions the on-disk bytes remain exactly the
downloaded bytes (and the scanned text is unchanged). -/
theorem c8_patcher_rewrites (index : List (String × String))
    (full base : String) (doc : List PrprojToken) {β : Type}
    (gzip : String → β) (downloadedBytes : β) :
    (patchToken index (.pathMatch full base) ≠ (full, 0)
      ↔ ∃ newPath, lookupIndex index (lowerStr base) = some newPath
          ∧ lowerStr newPath ≠ lowerStr full)
    ∧ (∀ newPath, lookupIndex index (lowerStr base) = some newPath →
        lowerStr newPath ≠ lowerStr full →
        patchToken index (.pathMatch full base) = (newPath, 1))
    ∧ (lookupIndex index (lowerStr base) = none →
        patchToken index (.pathMatch full base) = (full, 0))
    ∧ ((patchDocument index doc).2 = 0 →
        patchedDiskContent gzip downloadedBytes index doc = downloadedBytes
        ∧ (patchDocument index doc).1 = renderDocument doc)
    ∧ (0 < (patchDocument index doc).2 →
        patchedDiskContent gzip downloadedBytes index doc
          = gzip (patchDocument index doc).1) := by
  refine ⟨?_, ?_, ?_, ?_, ?_⟩
  · constructor
    · intro hne
      cases hl : lookupIndex index (lowerStr base) with
      | none =>
        rw [patchToken_lookup_none index full base hl] at hne
        exact absurd rfl hne
      | some newPath =>
        by_cases hd : lowerStr newPath ≠ lowerStr full
        · exact ⟨newPath, rfl, hd⟩
        · rw [patchToken_lookup_some_eq index full base newPath hl hd] at hne
          exact absurd rfl hne
    · rintro ⟨newPath, hl, hd⟩
      rw [patchToken_lookup_some_ne index full base newPath hl hd]
      intro hcontra
      have := congrArg Prod.snd hcontra
      simp at this
  · intro newPath hl hd
    exact patchToken_lookup_some_ne index full base newPath hl hd
  · intro hl
    exact patchToken_lookup_none index full base hl
  · intro h0
    refine ⟨?_, patchDocument_count_zero index doc h0⟩
    unfold patchedDiskContent
    rw [if_neg (by omega)]
  · intro hpos
    unfold patchedDiskContent
    rw [if_pos hpos]

/-- Witness for C8: with the index entry `media.mov ↦ D:\Sync\media.mov`, the
embedded path `C:\Old\Media.MOV` (basename `Media.MOV`) is rewritten to the
indexed path with one substitution counted. -/
theorem c8_patcher_rewrites_witness :
    patchToken [("media.mov", "D:\\Sync\\media.mov")]
        (PrprojToken.pathMatch "C:\\Old\\Media.MOV" "Media.MOV")
      = ("D:\\Sync\\media.mov", 1) :=
  (c8_patcher_rewrites [("media.mov", "D:\\Sync\\media.mov")]
      "C:\\Old\\Media.MOV" "Media.MOV" [] (fun s => s) "").2.1
    "D:\\Sync\\media.mov" (by decide) (by decide)

/-! ## C9: lock release requires ownership
(src/admin-server/server.js, `POST /api/projects/unlock`, lines 282-298) -/

/-- A row of the `api_keys` table, as used by the unlock handler. -/
structure ApiKeyRow where
  key : String
  editorName : String
deriving DecidableEq, Repr

/-- A row of the `project_locks` table. -/
structure LockRow where
  projectName : String
  lockedBy : String
  lockedAt : String
deriving DecidableEq, Repr

/-- The three responses of the unlock endpoint: HTTP 401 for an unknown API
key, `{success: false, error: 'You do not own this lock'}`, or
`{success: true}`. -/
inductive UnlockResponse where
  | invalidKey
  | notOwner
  | ok
deriving DecidableEq, Repr

/-- The unlock handler (lines 283-298): look up the API key (401 if absent);
if a lock row exists for the project and `lock.locked_by !== key.editor_name`,
reply `{success: false}` leaving the row in place; otherwise delete the row
and reply `{success: true}`.  Returns the response and the lock row after the
request. -/
def unlockHandler (keyRow : Option ApiKeyRow) (lock : Option LockRow) :
    UnlockResponse × Option LockRow :=
  match keyRow with
  | none => (.invalidKey, lock)
  | some key =>
    match lock with
    | some l =>
      if l.lockedBy ≠ key.editorName then (.notOwner, some l)
      else (.ok, none)
    | none => (.ok, none)

/-- C9: a release request from a caller whose editor name differs from the
lock's `locked_by` is rejected with `{success: false}` and leaves the lock row
unchanged; conversely, whenever a release of an existing lock succeeds, the
caller's editor name equals the holder. -/
theorem c9_unlock_owner_only (key : ApiKeyRow) (l : LockRow)
    (h : l.lockedBy ≠ key.editorName) :
    unlockHandler (some key) (some l) = (UnlockResponse.notOwner, some l)
    ∧ (∀ k2 : ApiKeyRow,
        (unlockHandler (some k2) (some l)).1 = UnlockResponse.ok →
          l.lockedBy = k2.editorName) := by
  constructor
  · simp only [unlockHandler]
    rw [if_pos h]
  · intro k2 hok
    by_cases h2 : l.lockedBy = k2.editorName
    · exact h2
    · simp only [unlockHandler] at hok
      rw [if_pos h2] at hok
      exact absurd hok (by simp)

/-- Witness for C9: Bob cannot release Alice's lock; the row survives. -/
theorem c9_unlock_owner_only_witness :
    unlockHandler (some ⟨"k2", "Bob"⟩) (some ⟨"Promo_Cut", "Alice", "t0"⟩)
      = (UnlockResponse.notOwner, some ⟨"Promo_Cut", "Alice", "t0"⟩) :=
  (c9_unlock_owner_only ⟨"k2", "Bob"⟩ ⟨"Promo_Cut", "Alice", "t0"⟩
    (by decide)).1

/-- Witness for C10 at a concrete failing hash computation: dedup is bypassed
even though a byte-identical remote copy exists. -/
theorem c10_md5_failure_bypasses_dedup_witness :
    dedupDecision (some ⟨"idA", some "9e107d9d"⟩)
        (computeLocalMd5Result (Except.error "EACCES"))
      = UploadPathDecision.transfer :=
  (c10_md5_failure_bypasses_dedup "EACCES" (some ⟨"idA", some "9e107d9d"⟩)
    true 0).2.1

end WeviSync
